import Mathlib

/-!
# Verification of the image-transformer-api request pipeline

Shallow embedding of `src/main.rs` (an axum service that re-encodes an
uploaded PNG/JPEG/WEBP image to WEBP, with optional resizing and quality
parameters), together with theorems settling the specification claims.

Modelling conventions:
* raw bytes are `List Nat` (each entry a byte value);
* Rust `u32` parsing is modelled over `Nat` with the explicit bound
  `U32_MAX`; Rust `f32` values are modelled by `F32` — a finite exact
  rational (obtained by rounding the parsed decimal to the nearest
  binary32 value, ties to even), a signed infinity, or NaN — with the
  IEEE comparison semantics (every comparison against NaN is false);
* the external codec calls (`image::load_from_memory`, the libwebp
  encoder) are parameters of the pipeline definitions, while the
  repository's own control flow around them is embedded concretely;
* `image::guess_format` and `DynamicImage::resize` are library
  dependencies with fixed deterministic behaviour; they are embedded
  concretely from the library's magic-byte table and
  `resize_dimensions` arithmetic (f64 arithmetic carried out exactly
  over `Rat`).
-/

deriving instance DecidableEq for Except

/-- Rust `u32::MAX`. -/
def U32_MAX : Nat := 4294967295

/-- HTTP 400. -/
def BAD_REQUEST : Nat := 400

/-- HTTP 500. -/
def INTERNAL_SERVER_ERROR : Nat := 500

/-- Embedding of the `AppError` struct of `main.rs`. -/
structure AppError where
  status_code : Nat
  message : String
  deriving DecidableEq, Repr

/-- The numeric value of a decimal digit character, if it is one. -/
def digitVal (c : Char) : Option Nat :=
  if '0' ≤ c ∧ c ≤ '9' then some (c.toNat - 48) else none

/-- One step of accumulating a decimal value over characters. -/
def digitStep (a : Option Nat) (c : Char) : Option Nat :=
  match a, digitVal c with
  | some n, some d => some (n * 10 + d)
  | _, _ => none

/-- Value of a nonempty all-digit character list; `none` otherwise.
This is the digit-consuming core of Rust integer parsing. -/
def digitsVal (cs : List Char) : Option Nat :=
  match cs with
  | [] => none
  | _ :: _ => cs.foldl digitStep (some 0)

/-- Strip one leading `+` sign (Rust integer parsing accepts it). -/
def stripPlus (s : List Char) : List Char :=
  match s with
  | c :: r => if c = '+' then r else s
  | [] => s

/-- Embedding of Rust `str::parse::<u32>`: optional `+` sign, a nonempty
run of decimal digits, and the value must fit in `u32` (otherwise the
parse fails with an overflow error, modelled as `none`). -/
def parseU32 (s : List Char) : Option Nat :=
  match digitsVal (stripPlus s) with
  | some v => if v ≤ U32_MAX then some v else none
  | none => none

/-- Embedding of Rust `str::split(sep)` over a character list:
`splitChar sep cs` is the list of maximal `sep`-free segments, so a
string with `n` occurrences of `sep` yields `n + 1` parts. -/
def splitChar (sep : Char) : List Char → List (List Char)
  | [] => [[]]
  | c :: cs =>
    if c = sep then [] :: splitChar sep cs
    else
      match splitChar sep cs with
      | [] => [[c]]
      | p :: ps => (c :: p) :: ps

/-- Embedding of `parse_size` from `main.rs`: split on `x`, demand
exactly two parts, parse each part as `u32`. -/
def parse_size (size_str : String) : Except AppError (Nat × Nat) :=
  match splitChar 'x' size_str.toList with
  | [p0, p1] =>
    match parseU32 p0 with
    | none => .error ⟨BAD_REQUEST, "Invalid width value"⟩
    | some width =>
      match parseU32 p1 with
      | none => .error ⟨BAD_REQUEST, "Invalid height value"⟩
      | some height => .ok (width, height)
  | _ => .error ⟨BAD_REQUEST, "Invalid size format. Use \x27WIDTHxHEIGHT\x27"⟩

/-- An in-memory decoded image. Only the dimensions are modelled: the
claims under verification concern dimensions, formats, statuses and
control flow, never individual pixel values. -/
structure DynamicImage where
  width : Nat
  height : Nat
  deriving DecidableEq, Repr

/-- Round half away from zero (the behaviour of Rust `f64::round`) for a
nonnegative rational, returned as a `Nat`. -/
def roundNat (q : Rat) : Nat := (Int.floor (q + 1 / 2)).toNat

/-- Embedding of the image library's `resize_dimensions` (the dimension
arithmetic behind `DynamicImage::resize`): scale by the most
constraining of the two ratios (`fill = false` keeps the image inside
the requested box), round, clamp to at least 1, and cap at `u32::MAX`.
The library's f64 arithmetic is carried out exactly over `Rat`. -/
def resize_dimensions (width height nwidth nheight : Nat) (fill : Bool) : Nat × Nat :=
  let wr : Rat := (nwidth : Rat) / (width : Rat)
  let hr : Rat := (nheight : Rat) / (height : Rat)
  let r := if fill then max wr hr else min wr hr
  let nw := max (roundNat ((width : Rat) * r)) 1
  let nh := max (roundNat ((height : Rat) * r)) 1
  if nw > U32_MAX then
    let r2 : Rat := (U32_MAX : Rat) / (width : Rat)
    (U32_MAX, max (roundNat ((height : Rat) * r2)) 1)
  else if nh > U32_MAX then
    let r2 : Rat := (U32_MAX : Rat) / (height : Rat)
    (max (roundNat ((width : Rat) * r2)) 1, U32_MAX)
  else (nw, nh)

/-- Embedding of `DynamicImage::resize` (used by `process_image`): keep
the image if the requested dimensions are its own, otherwise resample to
the aspect-ratio-preserving dimensions that fit the requested box. -/
def DynamicImage.resize (img : DynamicImage) (nwidth nheight : Nat) : DynamicImage :=
  if (nwidth, nheight) = (img.width, img.height) then img
  else
    let wh := resize_dimensions img.width img.height nwidth nheight false
    ⟨wh.1, wh.2⟩

/-- Decimal value of a digit run (used by the float-parsing model; the
caller guarantees the characters are digits). -/
def digitsToNat (ds : List Char) : Nat :=
  ds.foldl (fun a c => a * 10 + (c.toNat - 48)) 0

/-- Integer powers of ten over `Rat`, written out so that both signs are
plain exponentiation. -/
def pow10 : Int → Rat
  | .ofNat n => (10 : Rat) ^ n
  | .negSucc n => 1 / (10 : Rat) ^ (n + 1)

/-- The signed value of a decimal literal with integer part `ip` and
fractional part `fp`. -/
def mantissa (sign : Rat) (ip fp : List Char) : Rat :=
  sign * ((digitsToNat ip : Rat) + (digitsToNat fp : Rat) / (10 : Rat) ^ fp.length)

/-- Exponent suffix of a float literal: an optional sign and a nonempty
digit run, which must exhaust the input. -/
def parseExp (sign : Rat) (ip fp : List Char) (r : List Char) : Option Rat :=
  let er : Int × List Char :=
    match r with
    | '-' :: r2 => (-1, r2)
    | '+' :: r2 => (1, r2)
    | _ => (1, r)
  let eds := er.2.takeWhile Char.isDigit
  let rest := er.2.dropWhile Char.isDigit
  if eds = [] then none
  else if rest = [] then some (mantissa sign ip fp * pow10 (er.1 * digitsToNat eds))
  else none

/-- The exact rational value of a decimal float literal (after the sign
has been taken off): `digits [. digits]` or `. digits`, with an optional
`e`/`E` exponent, and nothing after it. -/
def parseDecimalRat (sign : Rat) (cs1 : List Char) : Option Rat :=
  let ip := cs1.takeWhile Char.isDigit
  let cs2 := cs1.dropWhile Char.isDigit
  let fr : List Char × List Char :=
    match cs2 with
    | '.' :: r => (r.takeWhile Char.isDigit, r.dropWhile Char.isDigit)
    | _ => ([], cs2)
  if ip = [] ∧ fr.1 = [] then none
  else
    match fr.2 with
    | [] => some (mantissa sign ip fr.1)
    | 'e' :: r => parseExp sign ip fr.1 r
    | 'E' :: r => parseExp sign ip fr.1 r
    | _ => none

/-- An IEEE-754 binary32 value as the program observes it: a finite
value (an exact rational of the form `±m·2^e` after rounding), a signed
infinity, or NaN. -/
inductive F32
  | finite (q : Rat)
  | inf (neg : Bool)
  | nan
  deriving DecidableEq, Repr

/-- IEEE `<` on f32 values: any comparison with NaN is false, `-inf` is
below and `+inf` above every non-NaN value. -/
def F32.lt : F32 → F32 → Bool
  | .nan, _ => false
  | _, .nan => false
  | .inf n1, .inf n2 => n1 && !n2
  | .inf n1, .finite _ => n1
  | .finite _, .inf n2 => !n2
  | .finite a, .finite b => a < b

/-- IEEE `≤` on f32 values: any comparison with NaN is false. -/
def F32.le : F32 → F32 → Bool
  | .nan, _ => false
  | _, .nan => false
  | .inf n1, .inf n2 => n1 || !n2
  | .inf n1, .finite _ => n1
  | .finite _, .inf n2 => !n2
  | .finite a, .finite b => a ≤ b

/-- Lower-case an ASCII letter (Rust matches the special float forms
case-insensitively). -/
def asciiLower (c : Char) : Char :=
  if 'A' ≤ c ∧ c ≤ 'Z' then Char.ofNat (c.toNat + 32) else c

/-- The special float forms Rust `str::parse::<f32>` accepts after an
optional sign: `inf`, `infinity` and `nan`, case-insensitively (the
sign of a NaN is not observable to the program). -/
def parseSpecial (neg : Bool) (cs : List Char) : Option F32 :=
  let l := cs.map asciiLower
  if l = ['i', 'n', 'f'] then some (.inf neg)
  else if l = ['i', 'n', 'f', 'i', 'n', 'i', 't', 'y'] then some (.inf neg)
  else if l = ['n', 'a', 'n'] then some .nan
  else none

/-- Fuel-driven base-2 logarithm on `Nat` (floor), written structurally
so that it evaluates inside the kernel. -/
def natLog2F : Nat → Nat → Nat
  | 0, _ => 0
  | fuel + 1, n => if 2 ≤ n then natLog2F fuel (n / 2) + 1 else 0

/-- `⌊log2 n⌋` for positive `n` (0 for `n ≤ 1`). -/
def natLog2 (n : Nat) : Nat := natLog2F n n

/-- Is `2^e ≤ a / b`, for positive naturals `a`, `b`? -/
def le2exp (e : Int) (a b : Nat) : Bool :=
  match e with
  | .ofNat n => b * 2 ^ n ≤ a
  | .negSucc n => b ≤ a * 2 ^ (n + 1)

/-- Round `a / b` (positive naturals) to the nearest integer, ties to
even — the IEEE rounding used when a decimal literal becomes an f32. -/
def roundNearestEvenNat (a b : Nat) : Nat :=
  let n := a / b
  let r := a % b
  if 2 * r < b then n
  else if 2 * r > b then n + 1
  else if n % 2 = 0 then n else n + 1

/-- Round `(a / b) · 2^k` to the nearest integer, ties to even. -/
def roundScaled (a b : Nat) (k : Int) : Nat :=
  match k with
  | .ofNat n => roundNearestEvenNat (a * 2 ^ n) b
  | .negSucc n => roundNearestEvenNat a (b * 2 ^ (n + 1))

/-- The rational `±m · 2^e`. -/
def ratOfSig (neg : Bool) (m : Nat) (e : Int) : Rat :=
  let mag : Rat :=
    match e with
    | .ofNat n => ((m * 2 ^ n : Nat) : Rat)
    | .negSucc n => Rat.divInt m (2 ^ (n + 1))
  if neg then -mag else mag

/-- Round an exact rational to the nearest binary32 value (round to
nearest, ties to even): 24-bit significand, exponent range
`[-126, 127]`, subnormals below `2^-126`, overflow to `±inf` beyond the
largest finite value. This is the rounding `str::parse::<f32>` performs
on the exact decimal value. -/
def toF32 (q : Rat) : F32 :=
  if q = 0 then .finite 0
  else
    let neg := q.num < 0
    let a := q.num.natAbs
    let b := q.den
    let e0 : Int := (natLog2 a : Int) - (natLog2 b : Int)
    let e : Int := if le2exp e0 a b then e0 else e0 - 1
    if e ≥ -126 then
      let m := roundScaled a b (23 - e)
      let em : Int × Nat := if m = 2 ^ 24 then (e + 1, 2 ^ 23) else (e, m)
      if em.1 > 127 then .inf neg
      else .finite (ratOfSig neg em.2 (em.1 - 23))
    else
      .finite (ratOfSig neg (roundScaled a b 149) (-149))

/-- Model of Rust `str::parse::<f32>`: an optional sign, then either a
special form (`inf`/`infinity`/`nan`, case-insensitive) or a decimal
literal whose exact value is rounded to the nearest binary32 value. -/
def parseF32 (s : String) : Option F32 :=
  let cs := s.toList
  let sr : Bool × List Char :=
    match cs with
    | '-' :: r => (true, r)
    | '+' :: r => (false, r)
    | _ => (false, cs)
  match parseSpecial sr.1 sr.2 with
  | some v => some v
  | none => (parseDecimalRat (if sr.1 then -1 else 1) sr.2).map toF32

/-- The container formats the image library can sniff (the entries of
its magic-byte table that this model carries). -/
inductive ImageFormat
  | Png | Jpeg | Gif | WebP | Tiff | Dds | Bmp | Ico | Hdr | Qoi
  deriving DecidableEq, Repr

/-- Does `b` start with the magic bytes `g`? -/
def hasMagic (g b : List Nat) : Bool := b.take g.length == g

/-- Model of `image::guess_format`: classify the payload by its leading
magic bytes, `none` when no known signature matches. WEBP requires the
RIFF header plus the `WEBP` tag at offset 8. -/
def guess_format (b : List Nat) : Option ImageFormat :=
  if hasMagic [0x89, 0x50, 0x4E, 0x47, 0x0D, 0x0A, 0x1A, 0x0A] b then some .Png
  else if hasMagic [0xFF, 0xD8, 0xFF] b then some .Jpeg
  else if hasMagic [0x47, 0x49, 0x46, 0x38, 0x39, 0x61] b then some .Gif
  else if hasMagic [0x47, 0x49, 0x46, 0x38, 0x37, 0x61] b then some .Gif
  else if hasMagic [0x52, 0x49, 0x46, 0x46] b ∧ (b.drop 8).take 4 = [0x57, 0x45, 0x42, 0x50] then
    some .WebP
  else if hasMagic [0x4D, 0x4D, 0x00, 0x2A] b then some .Tiff
  else if hasMagic [0x49, 0x49, 0x2A, 0x00] b then some .Tiff
  else if hasMagic [0x44, 0x44, 0x53, 0x20] b then some .Dds
  else if hasMagic [0x42, 0x4D] b then some .Bmp
  else if hasMagic [0x00, 0x00, 0x01, 0x00] b then some .Ico
  else if hasMagic [0x23, 0x3F, 0x52, 0x41, 0x44, 0x49, 0x41, 0x4E, 0x43, 0x45] b then some .Hdr
  else if hasMagic [0x71, 0x6F, 0x69, 0x66] b then some .Qoi
  else none

/-- `DynamicImage::to_rgba8` re-lays the pixels as 8-bit RGBA; it keeps
the dimensions, which are all this model tracks. -/
def to_rgba8 (img : DynamicImage) : DynamicImage := img

/-- Embedding of `encode_lossy_webp` from `main.rs`. The libwebp call
`Encoder::encode(quality)` is the parameter `enc` (it always hands back
a buffer); the function errors when that buffer is empty. -/
def encode_lossy_webp (enc : DynamicImage → F32 → List Nat) (img : DynamicImage)
    (quality : F32) : Except AppError (List Nat) :=
  let rgba := to_rgba8 img
  let encoded := enc rgba quality
  if encoded = [] then
    .error ⟨INTERNAL_SERVER_ERROR, "Failed to encode image to WebP format"⟩
  else .ok encoded

/-- Embedding of `encode_to_webp` from `main.rs` (delegates). -/
def encode_to_webp (enc : DynamicImage → F32 → List Nat) (img : DynamicImage)
    (quality : F32) : Except AppError (List Nat) :=
  encode_lossy_webp enc img quality

/-- Embedding of `process_image` from `main.rs`: sniff the format,
reject anything but PNG/JPEG/WEBP, decode (the library decoder is the
parameter `dec`), resample when a size was supplied, and encode. -/
def process_image (dec : List Nat → Except String DynamicImage)
    (enc : DynamicImage → F32 → List Nat) (image_bytes : List Nat)
    (size_str : Option String) (quality : Option F32) : Except AppError (List Nat) :=
  match guess_format image_bytes with
  | none => .error ⟨BAD_REQUEST, "Could not determine image format"⟩
  | some image_format =>
    if ¬ (image_format = .Png ∨ image_format = .Jpeg ∨ image_format = .WebP) then
      .error ⟨BAD_REQUEST, "Input image must be PNG, JPG, or WebP"⟩
    else
      match dec image_bytes with
      | .error e => .error ⟨INTERNAL_SERVER_ERROR, "Failed to decode image: " ++ e⟩
      | .ok img0 =>
        match size_str with
        | some s =>
          match parse_size s with
          | .error e => .error e
          | .ok (width, height) =>
            encode_to_webp enc (img0.resize width height) (quality.getD (.finite 100))
        | none => encode_to_webp enc img0 (quality.getD (.finite 100))

/-- One multipart form field as the handler sees it: the name reported
by the multipart layer (`""` for an unnamed field, after
`field.name().unwrap_or("")`), the raw bytes (what `field.bytes()`
hands back) and the text decoding (what `field.text()` hands back). -/
structure FormField where
  name : String
  content : List Nat
  text : String
  deriving DecidableEq, Repr

/-- Body of an HTTP response: encoded bytes on success, the error
message as plain text on failure. -/
inductive ResponseBody
  | bytes (bs : List Nat)
  | text (s : String)
  deriving DecidableEq, Repr

/-- The parts of an axum response the spec claims talk about. -/
structure Response where
  status : Nat
  content_type : Option String
  body : ResponseBody
  deriving DecidableEq, Repr

/-- Embedding of the `while let Some(field) = multipart.next_field()`
loop of `transform_image_handler`: fold over the fields, each
occurrence of `image`/`size`/`quality` overwriting the accumulator,
with the quality range check performed on the spot. -/
def multipart_loop (parts : List FormField) (image_data : Option (List Nat))
    (size_str : Option String) (quality : Option F32) :
    Except AppError (Option (List Nat) × Option String × Option F32) :=
  match parts with
  | [] => .ok (image_data, size_str, quality)
  | field :: rest =>
    if field.name = "image" then multipart_loop rest (some field.content) size_str quality
    else if field.name = "size" then multipart_loop rest image_data (some field.text) quality
    else if field.name = "quality" then
      match parseF32 field.text with
      | some q =>
        if F32.lt q (.finite 0) || F32.lt (.finite 100) q then
          .error ⟨BAD_REQUEST, "Quality must be between 0.0 and 100.0"⟩
        else multipart_loop rest image_data size_str (some q)
      | none => multipart_loop rest image_data size_str none
    else multipart_loop rest image_data size_str quality

/-- Embedding of `transform_image_handler` from `main.rs`: walk the
multipart fields, demand an image, run `process_image`, and wrap the
bytes as a 200 `image/webp` response. -/
def transform_image_handler (dec : List Nat → Except String DynamicImage)
    (enc : DynamicImage → F32 → List Nat) (parts : List FormField) :
    Except AppError Response :=
  match multipart_loop parts none none none with
  | .error e => .error e
  | .ok (image_data, size_str, quality) =>
    match image_data with
    | none => .error ⟨BAD_REQUEST, "Image data not provided in \x27image\x27 field"⟩
    | some image_bytes =>
      match process_image dec enc image_bytes size_str quality with
      | .error e => .error e
      | .ok webp_bytes => .ok ⟨200, some "image/webp", .bytes webp_bytes⟩

/-- Embedding of `IntoResponse for AppError`: the status code with the
message as a plain-text body (the logging side effect has no influence
on the response). -/
def AppError.into_response (e : AppError) : Response :=
  ⟨e.status_code, none, .text e.message⟩

/-- A `quality` field whose text parses to a value the handler rejects
(one that compares below 0.0 or above 100.0 — NaN compares neither way
and is not rejected). The one way a multipart field can abort the
extraction loop. -/
def outOfRangeQuality (p : FormField) : Prop :=
  p.name = "quality" ∧
    ∃ v, parseF32 p.text = some v ∧ (F32.lt v (.finite 0) || F32.lt (.finite 100) v) = true

/-- The image bytes the extraction loop ends up with: the content of the
last `image`-named field, or the initial accumulator. -/
def lastImageAcc (parts : List FormField) (i : Option (List Nat)) : Option (List Nat) :=
  match parts with
  | [] => i
  | p :: rest => lastImageAcc rest (if p.name = "image" then some p.content else i)

/-- The size string the extraction loop ends up with: the text of the
last `size`-named field, or the initial accumulator. -/
def lastSizeAcc (parts : List FormField) (s : Option String) : Option String :=
  match parts with
  | [] => s
  | p :: rest => lastSizeAcc rest (if p.name = "size" then some p.text else s)

/-- The quality the extraction loop ends up with: the parse result of
the last `quality`-named field (so an unparseable last occurrence resets
it to absent), or the initial accumulator. -/
def lastQualityAcc (parts : List FormField) (q : Option F32) : Option F32 :=
  match parts with
  | [] => q
  | p :: rest => lastQualityAcc rest (if p.name = "quality" then parseF32 p.text else q)

/-- The PNG signature, used as a concrete well-formed payload head. -/
def pngBytes : List Nat := [0x89, 0x50, 0x4E, 0x47, 0x0D, 0x0A, 0x1A, 0x0A]

/-- A test decoder that always succeeds with a 1×1 image. -/
def decOk : List Nat → Except String DynamicImage := fun _ => .ok ⟨1, 1⟩

/-- A test decoder that always fails. -/
def decFail : List Nat → Except String DynamicImage := fun _ => .error "unreadable"

/-- A test encoder that always produces one byte. -/
def encConst : DynamicImage → F32 → List Nat := fun _ _ => [42]


/-! ### Lemmas about the digit and split machinery -/

theorem digitStep_none (c : Char) : digitStep none c = none := by
  cases h : digitVal c <;> simp [digitStep, h]

theorem foldl_digitStep_none : ∀ l : List Char, l.foldl digitStep none = none
  | [] => rfl
  | c :: cs => by rw [List.foldl_cons, digitStep_none, foldl_digitStep_none cs]

theorem foldl_digitStep_digits {cs : List Char} {a : Nat} :
    ∀ {acc : Nat}, cs.foldl digitStep (some acc) = some a → ∀ c ∈ cs, digitVal c ≠ none := by
  induction cs with
  | nil => intro acc _ c hc; exact absurd hc (List.not_mem_nil c)
  | cons c cs ih =>
    intro acc h d hd
    rw [List.foldl_cons] at h
    cases hv : digitVal c with
    | none =>
      rw [show digitStep (some acc) c = none by simp [digitStep, hv],
        foldl_digitStep_none] at h
      exact absurd h (by simp)
    | some dv =>
      rw [show digitStep (some acc) c = some (acc * 10 + dv) by simp [digitStep, hv]] at h
      rcases List.mem_cons.mp hd with rfl | hmem
      · simp [hv]
      · exact ih h d hmem

theorem digitsVal_all_digits {cs : List Char} {a : Nat} (h : digitsVal cs = some a) :
    ∀ c ∈ cs, digitVal c ≠ none := by
  cases cs with
  | nil => exact absurd h (by simp [digitsVal])
  | cons c rest => exact foldl_digitStep_digits (by simpa [digitsVal] using h)

theorem digitsVal_x_not_mem {cs : List Char} {a : Nat} (h : digitsVal cs = some a) :
    'x' ∉ cs := fun hm => digitsVal_all_digits h 'x' hm (by decide)

theorem digitsVal_stripPlus {cs : List Char} {a : Nat} (h : digitsVal cs = some a) :
    stripPlus cs = cs := by
  cases cs with
  | nil => rfl
  | cons c rest =>
    have hc : digitVal c ≠ none := digitsVal_all_digits h c (List.mem_cons_self c rest)
    have : c ≠ '+' := by rintro rfl; exact hc (by decide)
    simp [stripPlus, this]

theorem parseU32_of_digits {cs : List Char} {a : Nat} (h : digitsVal cs = some a)
    (hle : a ≤ U32_MAX) : parseU32 cs = some a := by
  rw [parseU32, digitsVal_stripPlus h, h]
  simp [hle]

theorem splitChar_not_mem {sep : Char} {cs : List Char} (h : sep ∉ cs) :
    splitChar sep cs = [cs] := by
  induction cs with
  | nil => rfl
  | cons c cs ih =>
    have hc : ¬ (c = sep) := by rintro rfl; exact h (List.mem_cons_self c cs)
    have hcs : sep ∉ cs := fun hm => h (List.mem_cons_of_mem c hm)
    simp [splitChar, hc, ih hcs]

theorem splitChar_append {sep : Char} {A B : List Char} (h : sep ∉ A) :
    splitChar sep (A ++ sep :: B) = A :: splitChar sep B := by
  induction A with
  | nil => simp [splitChar]
  | cons c A ih =>
    have hc : ¬ (c = sep) := by rintro rfl; exact h (List.mem_cons_self c A)
    have hA : sep ∉ A := fun hm => h (List.mem_cons_of_mem c hm)
    simp [splitChar, hc, ih hA]

/-! ### Step lemmas for the multipart extraction loop -/

theorem loop_cons_image {p : FormField} {rest i s q} (h : p.name = "image") :
    multipart_loop (p :: rest) i s q = multipart_loop rest (some p.content) s q := by
  simp [multipart_loop, h]

theorem loop_cons_size {p : FormField} {rest i s q} (h : p.name = "size") :
    multipart_loop (p :: rest) i s q = multipart_loop rest i (some p.text) q := by
  simp [multipart_loop, h]

theorem loop_cons_quality_ok {p : FormField} {rest i s q v} (h : p.name = "quality")
    (hv : parseF32 p.text = some v)
    (hin : (F32.lt v (.finite 0) || F32.lt (.finite 100) v) = false) :
    multipart_loop (p :: rest) i s q = multipart_loop rest i s (some v) := by
  simp [multipart_loop, h, hv, hin]

theorem loop_cons_quality_bad {p : FormField} {rest i s q v} (h : p.name = "quality")
    (hv : parseF32 p.text = some v)
    (hout : (F32.lt v (.finite 0) || F32.lt (.finite 100) v) = true) :
    multipart_loop (p :: rest) i s q =
      .error ⟨BAD_REQUEST, "Quality must be between 0.0 and 100.0"⟩ := by
  simp [multipart_loop, h, hv, hout]

theorem loop_cons_quality_none {p : FormField} {rest i s q} (h : p.name = "quality")
    (hv : parseF32 p.text = none) :
    multipart_loop (p :: rest) i s q = multipart_loop rest i s none := by
  simp [multipart_loop, h, hv]

theorem loop_cons_other {p : FormField} {rest i s q} (hi : p.name ≠ "image")
    (hs : p.name ≠ "size") (hq : p.name ≠ "quality") :
    multipart_loop (p :: rest) i s q = multipart_loop rest i s q := by
  simp [multipart_loop, hi, hs, hq]

theorem multipart_loop_no_image :
    ∀ (parts : List FormField), (∀ p ∈ parts, p.name ≠ "image") →
      (∀ p ∈ parts, ¬ outOfRangeQuality p) →
      ∀ s q, ∃ s' q', multipart_loop parts none s q = .ok (none, s', q') := by
  intro parts
  induction parts with
  | nil => exact fun _ _ s q => ⟨s, q, rfl⟩
  | cons p rest ih =>
    intro hni hq s q
    have hni' : ∀ r ∈ rest, r.name ≠ "image" :=
      fun r hr => hni r (List.mem_cons_of_mem p hr)
    have hq' : ∀ r ∈ rest, ¬ outOfRangeQuality r :=
      fun r hr => hq r (List.mem_cons_of_mem p hr)
    have hpi : p.name ≠ "image" := hni p (List.mem_cons_self p rest)
    by_cases hps : p.name = "size"
    · rw [loop_cons_size hps]; exact ih hni' hq' _ _
    by_cases hpq : p.name = "quality"
    · cases hv : parseF32 p.text with
      | none => rw [loop_cons_quality_none hpq hv]; exact ih hni' hq' _ _
      | some v =>
        cases hb : F32.lt v (.finite 0) || F32.lt (.finite 100) v with
        | true => exact absurd ⟨hpq, v, hv, hb⟩ (hq p (List.mem_cons_self p rest))
        | false => rw [loop_cons_quality_ok hpq hv hb]; exact ih hni' hq' _ _
    · rw [loop_cons_other hpi hps hpq]; exact ih hni' hq' _ _

theorem multipart_loop_bad_quality :
    ∀ (parts : List FormField), (∃ p ∈ parts, outOfRangeQuality p) →
      ∀ i s q, multipart_loop parts i s q =
        .error ⟨BAD_REQUEST, "Quality must be between 0.0 and 100.0"⟩ := by
  intro parts
  induction parts with
  | nil => rintro ⟨p, hp, -⟩; exact absurd hp (List.not_mem_nil p)
  | cons p rest ih =>
    rintro ⟨r, hr, hbad⟩ i s q
    rcases List.mem_cons.mp hr with rfl | hmem
    · rcases hbad with ⟨hname, v, hv, hout⟩
      exact loop_cons_quality_bad hname hv hout
    · by_cases hpi : p.name = "image"
      · rw [loop_cons_image hpi]; exact ih ⟨r, hmem, hbad⟩ _ _ _
      by_cases hps : p.name = "size"
      · rw [loop_cons_size hps]; exact ih ⟨r, hmem, hbad⟩ _ _ _
      by_cases hpq : p.name = "quality"
      · cases hv : parseF32 p.text with
        | none => rw [loop_cons_quality_none hpq hv]; exact ih ⟨r, hmem, hbad⟩ _ _ _
        | some v =>
          cases hout : F32.lt v (.finite 0) || F32.lt (.finite 100) v with
          | true => exact loop_cons_quality_bad hpq hv hout
          | false => rw [loop_cons_quality_ok hpq hv hout]; exact ih ⟨r, hmem, hbad⟩ _ _ _
      · rw [loop_cons_other hpi hps hpq]; exact ih ⟨r, hmem, hbad⟩ _ _ _

theorem multipart_loop_ok_components :
    ∀ (parts : List FormField) i s q img' s' q',
      multipart_loop parts i s q = .ok (img', s', q') →
      img' = lastImageAcc parts i ∧ s' = lastSizeAcc parts s ∧ q' = lastQualityAcc parts q := by
  intro parts
  induction parts with
  | nil =>
    intro i s q img' s' q' h
    rw [multipart_loop] at h
    injection h with h
    injection h with h1 h2
    injection h2 with h2 h3
    exact ⟨h1.symm, h2.symm, h3.symm⟩
  | cons p rest ih =>
    intro i s q img' s' q' h
    by_cases hpi : p.name = "image"
    · rw [loop_cons_image hpi] at h
      simpa [lastImageAcc, lastSizeAcc, lastQualityAcc, hpi] using ih _ _ _ _ _ _ h
    by_cases hps : p.name = "size"
    · rw [loop_cons_size hps] at h
      simpa [lastImageAcc, lastSizeAcc, lastQualityAcc, hps] using ih _ _ _ _ _ _ h
    by_cases hpq : p.name = "quality"
    · cases hv : parseF32 p.text with
      | none =>
        rw [loop_cons_quality_none hpq hv] at h
        simpa [lastImageAcc, lastSizeAcc, lastQualityAcc, hpq, hv] using ih _ _ _ _ _ _ h
      | some v =>
        cases hout : F32.lt v (.finite 0) || F32.lt (.finite 100) v with
        | true =>
          rw [loop_cons_quality_bad hpq hv hout] at h
          exact absurd h (by simp)
        | false =>
          rw [loop_cons_quality_ok hpq hv hout] at h
          simpa [lastImageAcc, lastSizeAcc, lastQualityAcc, hpq, hv] using ih _ _ _ _ _ _ h
    · rw [loop_cons_other hpi hps hpq] at h
      simpa [lastImageAcc, lastSizeAcc, lastQualityAcc, hpi, hps, hpq] using ih _ _ _ _ _ _ h

/-! ### Lemmas about the resampling arithmetic -/

theorem floor_natCast_add_half (n : Nat) : Int.floor ((n : Rat) + 1 / 2) = n := by
  rw [Int.floor_eq_iff]
  constructor
  · push_cast
    linarith
  · push_cast
    linarith

theorem roundNat_natCast (n : Nat) : roundNat (n : Rat) = n := by
  rw [roundNat, floor_natCast_add_half]
  exact Int.toNat_natCast n

theorem roundNat_le {q : Rat} {n : Nat} (h : q ≤ (n : Rat)) : roundNat q ≤ n := by
  have h1 : Int.floor (q + 1 / 2) ≤ Int.floor ((n : Rat) + 1 / 2) :=
    Int.floor_mono (by linarith)
  rw [floor_natCast_add_half] at h1
  exact Int.toNat_le.mpr h1

theorem resize_dimensions_bounds {w h nw nh : Nat} (hw : 0 < w) (hh : 0 < h)
    (hnw : 0 < nw) (hnh : 0 < nh) (hbw : nw ≤ U32_MAX) (hbh : nh ≤ U32_MAX) :
    1 ≤ (resize_dimensions w h nw nh false).1 ∧ (resize_dimensions w h nw nh false).1 ≤ nw ∧
      1 ≤ (resize_dimensions w h nw nh false).2 ∧ (resize_dimensions w h nw nh false).2 ≤ nh := by
  have hw0 : (w : Rat) ≠ 0 := Nat.cast_ne_zero.mpr hw.ne'
  have hh0 : (h : Rat) ≠ 0 := Nat.cast_ne_zero.mpr hh.ne'
  have hwpos : (0 : Rat) ≤ (w : Rat) := by positivity
  have hhpos : (0 : Rat) ≤ (h : Rat) := by positivity
  have hmw : (w : Rat) * ((nw : Rat) / w) = (nw : Rat) := by field_simp
  have hmh : (h : Rat) * ((nh : Rat) / h) = (nh : Rat) := by field_simp
  have hle1 : (w : Rat) * min ((nw : Rat) / w) ((nh : Rat) / h) ≤ (nw : Rat) := by
    calc (w : Rat) * min ((nw : Rat) / w) ((nh : Rat) / h)
        ≤ (w : Rat) * ((nw : Rat) / w) :=
          mul_le_mul_of_nonneg_left (min_le_left _ _) hwpos
      _ = (nw : Rat) := hmw
  have hle2 : (h : Rat) * min ((nw : Rat) / w) ((nh : Rat) / h) ≤ (nh : Rat) := by
    calc (h : Rat) * min ((nw : Rat) / w) ((nh : Rat) / h)
        ≤ (h : Rat) * ((nh : Rat) / h) :=
          mul_le_mul_of_nonneg_left (min_le_right _ _) hhpos
      _ = (nh : Rat) := hmh
  have hrw : roundNat ((w : Rat) * min ((nw : Rat) / w) ((nh : Rat) / h)) ≤ nw :=
    roundNat_le hle1
  have hrh : roundNat ((h : Rat) * min ((nw : Rat) / w) ((nh : Rat) / h)) ≤ nh :=
    roundNat_le hle2
  have hnw2 : max (roundNat ((w : Rat) * min ((nw : Rat) / w) ((nh : Rat) / h))) 1 ≤ nw :=
    max_le hrw hnw
  have hnh2 : max (roundNat ((h : Rat) * min ((nw : Rat) / w) ((nh : Rat) / h))) 1 ≤ nh :=
    max_le hrh hnh
  have hcw : ¬ (max (roundNat ((w : Rat) * min ((nw : Rat) / w) ((nh : Rat) / h))) 1 > U32_MAX) :=
    not_lt.mpr (le_trans hnw2 hbw)
  have hch : ¬ (max (roundNat ((h : Rat) * min ((nw : Rat) / w) ((nh : Rat) / h))) 1 > U32_MAX) :=
    not_lt.mpr (le_trans hnh2 hbh)
  rw [resize_dimensions]
  simp only [Bool.false_eq_true, if_false, hcw, hch]
  exact ⟨le_max_right _ _, hnw2, le_max_right _ _, hnh2⟩

theorem resize_dimensions_exact {w h nw nh : Nat} (hw : 0 < w) (hh : 0 < h)
    (hnw : 0 < nw) (hnh : 0 < nh) (hbw : nw ≤ U32_MAX) (hbh : nh ≤ U32_MAX)
    (hratio : h * nw = w * nh) : resize_dimensions w h nw nh false = (nw, nh) := by
  have hw0 : (w : Rat) ≠ 0 := Nat.cast_ne_zero.mpr hw.ne'
  have hh0 : (h : Rat) ≠ 0 := Nat.cast_ne_zero.mpr hh.ne'
  have key : (nw : Rat) / w = (nh : Rat) / h := by
    rw [div_eq_div_iff hw0 hh0]
    have hcast : (h : Rat) * nw = (w : Rat) * nh := by exact_mod_cast hratio
    linarith [hcast, mul_comm (nw : Rat) (h : Rat), mul_comm (nh : Rat) (w : Rat)]
  have hmin : min ((nw : Rat) / w) ((nh : Rat) / h) = (nw : Rat) / w := by
    rw [key]
    exact min_self _
  have hmw : (w : Rat) * ((nw : Rat) / w) = (nw : Rat) := by field_simp
  have hmh : (h : Rat) * ((nw : Rat) / w) = (nh : Rat) := by rw [key]; field_simp
  have hrw : roundNat ((w : Rat) * min ((nw : Rat) / w) ((nh : Rat) / h)) = nw := by
    rw [hmin, hmw, roundNat_natCast]
  have hrh : roundNat ((h : Rat) * min ((nw : Rat) / w) ((nh : Rat) / h)) = nh := by
    rw [hmin, hmh, roundNat_natCast]
  rw [resize_dimensions]
  simp only [Bool.false_eq_true, if_false, hrw, hrh, Nat.max_eq_left hnw, Nat.max_eq_left hnh]
  simp [not_lt.mpr hbw, not_lt.mpr hbh]

theorem resize_bounds {w h nw nh : Nat} (hw : 0 < w) (hh : 0 < h)
    (hnw : 0 < nw) (hnh : 0 < nh) (hbw : nw ≤ U32_MAX) (hbh : nh ≤ U32_MAX) :
    1 ≤ (DynamicImage.resize ⟨w, h⟩ nw nh).width ∧
      (DynamicImage.resize ⟨w, h⟩ nw nh).width ≤ nw ∧
      1 ≤ (DynamicImage.resize ⟨w, h⟩ nw nh).height ∧
      (DynamicImage.resize ⟨w, h⟩ nw nh).height ≤ nh := by
  rw [DynamicImage.resize]
  by_cases heq : (nw, nh) = (w, h)
  · rw [if_pos heq]
    rw [Prod.ext_iff] at heq
    obtain ⟨rfl, rfl⟩ := heq
    exact ⟨hw, le_refl _, hh, le_refl _⟩
  · rw [if_neg heq]
    exact resize_dimensions_bounds hw hh hnw hnh hbw hbh

/-! ### Claim theorems -/

section ClaimTheorems
attribute [local semireducible] Rat.add Rat.mul Rat.inv Rat.sub

/-- C1 counterexample: `resize` does not produce the requested
dimensions — a 100×100 image resized to 800×600 comes out 600×600,
because the library call preserves the aspect ratio. -/
theorem resize_not_exact_cex :
    DynamicImage.resize ⟨100, 100⟩ 800 600 ≠ ⟨800, 600⟩ ∧
      DynamicImage.resize ⟨100, 100⟩ 800 600 = ⟨600, 600⟩ := by decide

/-- C1 (corrected): for positive requested dimensions within `u32`, the
resample step produces a buffer that fits inside the requested
`width × height` box with both dimensions at least 1, and the buffer has
exactly the requested dimensions when the requested box has the image's
aspect ratio (`h * nw = w * nh`) — not in general. -/
theorem resize_fits_requested_box (w h nw nh : Nat) (hw : 0 < w) (hh : 0 < h)
    (hnw : 0 < nw) (hnh : 0 < nh) (hbw : nw ≤ U32_MAX) (hbh : nh ≤ U32_MAX) :
    (1 ≤ (DynamicImage.resize ⟨w, h⟩ nw nh).width ∧
      (DynamicImage.resize ⟨w, h⟩ nw nh).width ≤ nw ∧
      1 ≤ (DynamicImage.resize ⟨w, h⟩ nw nh).height ∧
      (DynamicImage.resize ⟨w, h⟩ nw nh).height ≤ nh) ∧
    (h * nw = w * nh → DynamicImage.resize ⟨w, h⟩ nw nh = ⟨nw, nh⟩) := by
  refine ⟨resize_bounds hw hh hnw hnh hbw hbh, fun hratio => ?_⟩
  unfold DynamicImage.resize
  by_cases heq : (nw, nh) = (w, h)
  · rw [if_pos heq]
    rw [Prod.ext_iff] at heq
    obtain ⟨rfl, rfl⟩ := heq
    rfl
  · rw [if_neg heq]
    have hrd := resize_dimensions_exact hw hh hnw hnh hbw hbh hratio
    simp [hrd]

/-- Witness for C1: a 1×1 image resized to the aspect-preserving 2×2 box
does come out exactly 2×2. -/
theorem resize_fits_requested_box_witness :
    DynamicImage.resize ⟨1, 1⟩ 2 2 = ⟨2, 2⟩ :=
  (resize_fits_requested_box 1 1 2 2 (by decide) (by decide) (by decide) (by decide)
    (by decide) (by decide)).2 (by decide)

/-- C2 counterexample: with no `image` field but a `quality` field whose
value is out of range, the handler's error is the quality message, not
the missing-image message. -/
theorem missing_image_not_reported_cex :
    transform_image_handler decOk encConst [⟨"quality", [], "200"⟩] =
        .error ⟨400, "Quality must be between 0.0 and 100.0"⟩ ∧
      "Quality must be between 0.0 and 100.0" ≠
        "Image data not provided in \x27image\x27 field" := by
  constructor
  · decide
  · decide

/-- C2 (amended): a request with no `image` field yields the 400
missing-image error, provided no `quality` field parses to a value
outside `[0, 100]` (such a field aborts the request with the quality
error before the image check runs). -/
theorem missing_image_client_error (dec : List Nat → Except String DynamicImage)
    (enc : DynamicImage → F32 → List Nat) (parts : List FormField)
    (hni : ∀ p ∈ parts, p.name ≠ "image") (hq : ∀ p ∈ parts, ¬ outOfRangeQuality p) :
    transform_image_handler dec enc parts =
      .error ⟨BAD_REQUEST, "Image data not provided in \x27image\x27 field"⟩ := by
  obtain ⟨s', q', hloop⟩ := multipart_loop_no_image parts hni hq none none
  rw [transform_image_handler, hloop]

/-- Witness for C2: the empty multipart request gets the missing-image
error. -/
theorem missing_image_client_error_witness :
    transform_image_handler decOk encConst [] =
      .error ⟨BAD_REQUEST, "Image data not provided in \x27image\x27 field"⟩ :=
  missing_image_client_error decOk encConst [] (by simp) (by simp)

/-- C3 counterexample: `"nan"` successfully parses as a float, NaN lies
outside `[0.0, 100.0]` in the claim's sense (`0.0 ≤ NaN` is false), yet
the handler accepts it — `q < 0.0 || q > 100.0` is false on NaN — so
the request does not fail with the out-of-range error. -/
theorem quality_nan_accepted_cex :
    parseF32 "nan" = some .nan ∧
      F32.le (.finite 0) .nan = false ∧
      multipart_loop [⟨"quality", [], "nan"⟩] none none none =
        .ok (none, none, some .nan) := by decide

/-- C3 (corrected): a parsed quality is rejected with the 400
out-of-range error exactly when it compares below 0.0 or above 100.0
(the code's `q < 0.0 || q > 100.0`, which also rejects `±inf`), and is
accepted — the loop continues with it — otherwise; for every non-NaN
value that test agrees with "outside the closed interval
`[0.0, 100.0]`", but NaN, though outside the interval, passes the test
and is accepted. -/
theorem quality_range_check (rest : List FormField) (p : FormField) (i : Option (List Nat))
    (s : Option String) (q : Option F32) (v : F32) (hname : p.name = "quality")
    (hv : parseF32 p.text = some v) :
    ((F32.lt v (.finite 0) || F32.lt (.finite 100) v) = true →
        multipart_loop (p :: rest) i s q =
          .error ⟨BAD_REQUEST, "Quality must be between 0.0 and 100.0"⟩) ∧
    ((F32.lt v (.finite 0) || F32.lt (.finite 100) v) = false →
        multipart_loop (p :: rest) i s q = multipart_loop rest i s (some v)) ∧
    (v ≠ .nan →
      ((F32.lt v (.finite 0) || F32.lt (.finite 100) v) = true ↔
        ¬ (F32.le (.finite 0) v = true ∧ F32.le v (.finite 100) = true))) ∧
    ((F32.le (.finite 0) F32.nan = false ∧ F32.le F32.nan (.finite 100) = false) ∧
      (F32.lt F32.nan (.finite 0) || F32.lt (.finite 100) F32.nan) = false) := by
  refine ⟨fun hout => loop_cons_quality_bad hname hv hout,
    fun hin => loop_cons_quality_ok hname hv hin, ?_, by decide⟩
  intro hnn
  cases v with
  | nan => exact absurd rfl hnn
  | inf neg => cases neg <;> decide
  | finite a =>
    simp only [F32.lt, F32.le, Bool.or_eq_true, decide_eq_true_eq, not_and_or, not_le]

/-- Witness for C3: quality `"101"` parses, compares above 100.0, and
the request fails with the 400 out-of-range error. -/
theorem quality_range_check_witness :
    multipart_loop [⟨"quality", [], "101"⟩] none none none =
      .error ⟨BAD_REQUEST, "Quality must be between 0.0 and 100.0"⟩ :=
  (quality_range_check [] ⟨"quality", [], "101"⟩ none none none (.finite 101) rfl
    (by decide)).1 (by decide)

end ClaimTheorems

section ClaimTheoremsB
attribute [local semireducible] Rat.add Rat.mul Rat.inv Rat.sub

/-- C4 counterexample: `"4294967296"` and `"1"` are digit strings (the
first denoting `u32::MAX + 1`), yet `parse_size` rejects the size
`"4294967296x1"` — `parse::<u32>` enforces the `u32` upper bound. -/
theorem parse_size_overflow_cex :
    digitsVal (String.toList "4294967296") = some 4294967296 ∧
      digitsVal (String.toList "1") = some 1 ∧
      parse_size "4294967296x1" = .error ⟨400, "Invalid width value"⟩ := by decide

/-- C4 (amended): for digit strings `A` and `B` whose values are at most
`u32::MAX`, `parseSize` on `"AxB"` succeeds with the pair of values; the
bound is enforced by the `u32` parse, not by an explicit check. -/
theorem parse_size_digits_within_u32 (A B : List Char) (a b : Nat)
    (hA : digitsVal A = some a) (ha : a ≤ U32_MAX)
    (hB : digitsVal B = some b) (hb : b ≤ U32_MAX) :
    parse_size (String.mk (A ++ 'x' :: B)) = .ok (a, b) := by
  have hxA := digitsVal_x_not_mem hA
  have hxB := digitsVal_x_not_mem hB
  have hsplit : splitChar 'x' (String.mk (A ++ 'x' :: B)).toList = [A, B] := by
    have hto : (String.mk (A ++ 'x' :: B)).toList = A ++ 'x' :: B := rfl
    rw [hto, splitChar_append hxA, splitChar_not_mem hxB]
  simp only [parse_size, hsplit, parseU32_of_digits hA ha, parseU32_of_digits hB hb]

/-- Witness for C4: `parse_size "8x6" = (8, 6)`. -/
theorem parse_size_digits_within_u32_witness :
    parse_size (String.mk (['8'] ++ 'x' :: ['6'])) = .ok (8, 6) :=
  parse_size_digits_within_u32 ['8'] ['6'] 8 6 (by decide) (by decide) (by decide) (by decide)

/-- C5 (confirmed): `parse_size` fails with the invalid-format error
whenever splitting on `x` does not give exactly two parts, fails with
the invalid-width/height error when a part does not parse as `u32`, and
behaves as specified on `"800x600"`, `"800"`, `"800x600x10"`, `"ax10"`. -/
theorem parse_size_contract :
    (∀ s : String, (splitChar 'x' s.toList).length ≠ 2 →
        parse_size s = .error ⟨BAD_REQUEST, "Invalid size format. Use \x27WIDTHxHEIGHT\x27"⟩) ∧
    (∀ (s : String) (p0 p1 : List Char), splitChar 'x' s.toList = [p0, p1] →
        parseU32 p0 = none → parse_size s = .error ⟨BAD_REQUEST, "Invalid width value"⟩) ∧
    (∀ (s : String) (p0 p1 : List Char) (w : Nat), splitChar 'x' s.toList = [p0, p1] →
        parseU32 p0 = some w → parseU32 p1 = none →
        parse_size s = .error ⟨BAD_REQUEST, "Invalid height value"⟩) ∧
    parse_size "800x600" = .ok (800, 600) ∧
    parse_size "800" = .error ⟨BAD_REQUEST, "Invalid size format. Use \x27WIDTHxHEIGHT\x27"⟩ ∧
    parse_size "800x600x10" =
      .error ⟨BAD_REQUEST, "Invalid size format. Use \x27WIDTHxHEIGHT\x27"⟩ ∧
    parse_size "ax10" = .error ⟨BAD_REQUEST, "Invalid width value"⟩ := by
  refine ⟨?_, ?_, ?_, by decide, by decide, by decide, by decide⟩
  · intro s hlen
    rcases hsp : splitChar 'x' s.toList with _ | ⟨p0, _ | ⟨p1, _ | _⟩⟩
    · simp only [parse_size, hsp]
    · simp only [parse_size, hsp]
    · rw [hsp] at hlen
      simp at hlen
    · simp only [parse_size, hsp]
  · intro s p0 p1 hsp hp0
    simp only [parse_size, hsp, hp0]
  · intro s p0 p1 w hsp hp0 hp1
    simp only [parse_size, hsp, hp0, hp1]

/-- Witness for C5: a three-part size string fails with the
invalid-format error. -/
theorem parse_size_contract_witness :
    parse_size "1x2x3" = .error ⟨BAD_REQUEST, "Invalid size format. Use \x27WIDTHxHEIGHT\x27"⟩ :=
  parse_size_contract.1 "1x2x3" (by decide)

/-- C6 (confirmed): a `quality` text that does not parse as a float is
treated as absent — the loop continues with no quality value and no
error — and the pipeline with no quality behaves exactly as with the
default quality 100.0. -/
theorem quality_parse_failure_absent :
    parseF32 "notanumber" = none ∧
    (∀ (rest : List FormField) (p : FormField) (i : Option (List Nat)) (s : Option String)
        (q : Option F32), p.name = "quality" → parseF32 p.text = none →
        multipart_loop (p :: rest) i s q = multipart_loop rest i s none) ∧
    (∀ (dec : List Nat → Except String DynamicImage) (enc : DynamicImage → F32 → List Nat)
        (b : List Nat) (sz : Option String),
        process_image dec enc b sz none =
          process_image dec enc b sz (some (.finite 100))) := by
  refine ⟨by decide, ?_, ?_⟩
  · intro rest p i s q hname hv
    exact loop_cons_quality_none hname hv
  · intro dec enc b sz
    simp only [process_image, Option.getD_none, Option.getD_some]

/-- Witness for C6: an unparseable quality resets the accumulator and
continues without error. -/
theorem quality_parse_failure_absent_witness :
    multipart_loop [⟨"quality", [], "notanumber"⟩] none none (some (.finite 5)) =
      multipart_loop ([] : List FormField) none none none :=
  quality_parse_failure_absent.2.1 [] ⟨"quality", [], "notanumber"⟩ none none
    (some (.finite 5)) rfl (by decide)

end ClaimTheoremsB

theorem parse_size_error_cases {s : String} {e : AppError} (h : parse_size s = .error e) :
    e = ⟨BAD_REQUEST, "Invalid size format. Use \x27WIDTHxHEIGHT\x27"⟩ ∨
      e = ⟨BAD_REQUEST, "Invalid width value"⟩ ∨
      e = ⟨BAD_REQUEST, "Invalid height value"⟩ := by
  rcases hsp : splitChar 'x' s.toList with _ | ⟨p0, _ | ⟨p1, _ | _⟩⟩
  · left
    simp only [parse_size, hsp, Except.error.injEq] at h
    exact h.symm
  · left
    simp only [parse_size, hsp, Except.error.injEq] at h
    exact h.symm
  · cases hp0 : parseU32 p0 with
    | none =>
      right; left
      simp only [parse_size, hsp, hp0, Except.error.injEq] at h
      exact h.symm
    | some w =>
      cases hp1 : parseU32 p1 with
      | none =>
        right; right
        simp only [parse_size, hsp, hp0, hp1, Except.error.injEq] at h
        exact h.symm
      | some hgt =>
        simp only [parse_size, hsp, hp0, hp1] at h
        exact absurd h (by simp)
  · left
    simp only [parse_size, hsp, Except.error.injEq] at h
    exact h.symm

section ClaimTheoremsC
attribute [local semireducible] Rat.add Rat.mul Rat.inv Rat.sub

/-- C7 (confirmed): every failure is classified — size-parse errors,
out-of-range quality, unrecognized format, unsupported format and the
missing image field are 400; decode faults and an empty encoder result
are 500; and the rendered response body is always the plain-text
message. -/
theorem error_status_classification :
    (∀ (s : String) (e : AppError), parse_size s = .error e → e.status_code = BAD_REQUEST) ∧
    (∀ (parts : List FormField) (i : Option (List Nat)) (s : Option String) (q : Option F32),
        (∃ p ∈ parts, outOfRangeQuality p) →
        multipart_loop parts i s q =
          .error ⟨BAD_REQUEST, "Quality must be between 0.0 and 100.0"⟩) ∧
    (∀ (dec : List Nat → Except String DynamicImage) (enc : DynamicImage → F32 → List Nat)
        (b : List Nat) (sz : Option String) (q : Option F32), guess_format b = none →
        process_image dec enc b sz q =
          .error ⟨BAD_REQUEST, "Could not determine image format"⟩) ∧
    (∀ dec enc (b : List Nat) sz q (f : ImageFormat), guess_format b = some f →
        ¬ (f = .Png ∨ f = .Jpeg ∨ f = .WebP) →
        process_image dec enc b sz q =
          .error ⟨BAD_REQUEST, "Input image must be PNG, JPG, or WebP"⟩) ∧
    (∀ dec enc (b : List Nat) sz q (f : ImageFormat) (m : String), guess_format b = some f →
        (f = .Png ∨ f = .Jpeg ∨ f = .WebP) → dec b = .error m →
        process_image dec enc b sz q =
          .error ⟨INTERNAL_SERVER_ERROR, "Failed to decode image: " ++ m⟩) ∧
    (∀ (enc : DynamicImage → F32 → List Nat) (img : DynamicImage) (q : F32),
        enc (to_rgba8 img) q = [] →
        encode_lossy_webp enc img q =
          .error ⟨INTERNAL_SERVER_ERROR, "Failed to encode image to WebP format"⟩) ∧
    (∀ (dec : List Nat → Except String DynamicImage) (enc : DynamicImage → F32 → List Nat)
        (parts : List FormField), (∀ p ∈ parts, p.name ≠ "image") →
        (∀ p ∈ parts, ¬ outOfRangeQuality p) →
        transform_image_handler dec enc parts =
          .error ⟨BAD_REQUEST, "Image data not provided in \x27image\x27 field"⟩) ∧
    (∀ e : AppError, e.into_response.status = e.status_code ∧
        e.into_response.body = .text e.message) := by
  refine ⟨?_, ?_, ?_, ?_, ?_, ?_, ?_, ?_⟩
  · intro s e h
    rcases parse_size_error_cases h with rfl | rfl | rfl <;> rfl
  · intro parts i s q hex
    exact multipart_loop_bad_quality parts hex i s q
  · intro dec enc b sz q hf
    simp only [process_image, hf]
  · intro dec enc b sz q f hf hns
    simp only [process_image, hf]
    rw [if_pos hns]
  · intro dec enc b sz q f m hf hsup hdec
    simp only [process_image, hf]
    rw [if_neg (not_not_intro hsup)]
    simp only [hdec]
  · intro enc img q h
    simp [encode_lossy_webp, h]
  · intro dec enc parts hni hq
    obtain ⟨s', q', hloop⟩ := multipart_loop_no_image parts hni hq none none
    rw [transform_image_handler, hloop]
  · intro e
    exact ⟨rfl, rfl⟩

/-- Witness for C7: three text bytes have no image signature and get the
400 unrecognized-format error. -/
theorem error_status_classification_witness :
    process_image decFail encConst [104, 105, 33] none none =
      .error ⟨BAD_REQUEST, "Could not determine image format"⟩ :=
  error_status_classification.2.2.1 decFail encConst [104, 105, 33] none none (by decide)

/-- C8 (confirmed): the pipeline runs sniff → validate → decode →
(resample iff a size was requested) → encode; when the sniff or the
validation fails the result does not depend on the decoder or encoder at
all (the format check is strictly before any decoding), when decode
fails the result does not depend on the encoder, and the first failing
stage's error is surfaced unchanged. -/
theorem pipeline_order :
    (∀ (dec dec' : List Nat → Except String DynamicImage)
        (enc enc' : DynamicImage → F32 → List Nat) (b : List Nat) (sz : Option String)
        (q : Option F32), guess_format b = none →
        process_image dec enc b sz q = process_image dec' enc' b sz q ∧
        process_image dec enc b sz q =
          .error ⟨BAD_REQUEST, "Could not determine image format"⟩) ∧
    (∀ (dec dec' : List Nat → Except String DynamicImage)
        (enc enc' : DynamicImage → F32 → List Nat) (b : List Nat) (sz : Option String)
        (q : Option F32) (f : ImageFormat), guess_format b = some f →
        ¬ (f = .Png ∨ f = .Jpeg ∨ f = .WebP) →
        process_image dec enc b sz q = process_image dec' enc' b sz q ∧
        process_image dec enc b sz q =
          .error ⟨BAD_REQUEST, "Input image must be PNG, JPG, or WebP"⟩) ∧
    (∀ (dec : List Nat → Except String DynamicImage)
        (enc enc' : DynamicImage → F32 → List Nat) (b : List Nat) (sz : Option String)
        (q : Option F32) (f : ImageFormat) (m : String), guess_format b = some f →
        (f = .Png ∨ f = .Jpeg ∨ f = .WebP) → dec b = .error m →
        process_image dec enc b sz q = process_image dec enc' b sz q ∧
        process_image dec enc b sz q =
          .error ⟨INTERNAL_SERVER_ERROR, "Failed to decode image: " ++ m⟩) ∧
    (∀ (dec : List Nat → Except String DynamicImage) (enc : DynamicImage → F32 → List Nat)
        (b : List Nat) (q : Option F32) (f : ImageFormat) (img : DynamicImage),
        guess_format b = some f → (f = .Png ∨ f = .Jpeg ∨ f = .WebP) → dec b = .ok img →
        process_image dec enc b none q = encode_to_webp enc img (q.getD (.finite 100)) ∧
        (∀ (s : String) (w h : Nat), parse_size s = .ok (w, h) →
            process_image dec enc b (some s) q =
              encode_to_webp enc (img.resize w h) (q.getD (.finite 100))) ∧
        (∀ (s : String) (e : AppError), parse_size s = .error e →
            process_image dec enc b (some s) q = .error e)) := by
  refine ⟨?_, ?_, ?_, ?_⟩
  · intro dec dec' enc enc' b sz q hf
    have hred : ∀ (d : List Nat → Except String DynamicImage) (e : DynamicImage → F32 → List Nat),
        process_image d e b sz q = .error ⟨BAD_REQUEST, "Could not determine image format"⟩ := by
      intro d e
      simp only [process_image, hf]
    exact ⟨(hred dec enc).trans (hred dec' enc').symm, hred dec enc⟩
  · intro dec dec' enc enc' b sz q f hf hns
    have hred : ∀ (d : List Nat → Except String DynamicImage) (e : DynamicImage → F32 → List Nat),
        process_image d e b sz q = .error ⟨BAD_REQUEST, "Input image must be PNG, JPG, or WebP"⟩ := by
      intro d e
      simp only [process_image, hf]
      rw [if_pos hns]
    exact ⟨(hred dec enc).trans (hred dec' enc').symm, hred dec enc⟩
  · intro dec enc enc' b sz q f m hf hsup hdec
    have hred : ∀ e : DynamicImage → F32 → List Nat,
        process_image dec e b sz q =
          .error ⟨INTERNAL_SERVER_ERROR, "Failed to decode image: " ++ m⟩ := by
      intro e
      simp only [process_image, hf]
      rw [if_neg (not_not_intro hsup)]
      simp only [hdec]
    exact ⟨(hred enc).trans (hred enc').symm, hred enc⟩
  · intro dec enc b q f img hf hsup hdec
    refine ⟨?_, ?_, ?_⟩
    · simp only [process_image, hf]
      rw [if_neg (not_not_intro hsup)]
      simp only [hdec]
    · intro s w h hps
      simp only [process_image, hf]
      rw [if_neg (not_not_intro hsup)]
      simp only [hdec, hps]
    · intro s e hpe
      simp only [process_image, hf]
      rw [if_neg (not_not_intro hsup)]
      simp only [hdec, hpe]

/-- Witness for C8: on a BMP payload (recognized but unsupported) two
different decoders and encoders agree, and the error is the 400
unsupported-format message. -/
theorem pipeline_order_witness :
    process_image decOk encConst [0x42, 0x4D, 1] none none =
        process_image decFail (fun _ _ => []) [0x42, 0x4D, 1] none none ∧
      process_image decOk encConst [0x42, 0x4D, 1] none none =
        .error ⟨BAD_REQUEST, "Input image must be PNG, JPG, or WebP"⟩ :=
  pipeline_order.2.1 decOk decFail encConst (fun _ _ => []) [0x42, 0x4D, 1] none none .Bmp
    (by decide) (by decide)

end ClaimTheoremsC

theorem lastImageAcc_append (l1 l2 : List FormField) (i : Option (List Nat)) :
    lastImageAcc (l1 ++ l2) i = lastImageAcc l2 (lastImageAcc l1 i) := by
  induction l1 generalizing i with
  | nil => rfl
  | cons p l1 ih => simp [lastImageAcc, ih]

theorem lastImageAcc_not_named {l : List FormField} (h : ∀ r ∈ l, r.name ≠ "image")
    (i : Option (List Nat)) : lastImageAcc l i = i := by
  induction l with
  | nil => rfl
  | cons p l ih =>
    have hp : ¬ (p.name = "image") := h p (List.mem_cons_self p l)
    simp only [lastImageAcc, if_neg hp]
    exact ih (fun r hr => h r (List.mem_cons_of_mem p hr))

theorem lastSizeAcc_append (l1 l2 : List FormField) (s : Option String) :
    lastSizeAcc (l1 ++ l2) s = lastSizeAcc l2 (lastSizeAcc l1 s) := by
  induction l1 generalizing s with
  | nil => rfl
  | cons p l1 ih => simp [lastSizeAcc, ih]

theorem lastSizeAcc_not_named {l : List FormField} (h : ∀ r ∈ l, r.name ≠ "size")
    (s : Option String) : lastSizeAcc l s = s := by
  induction l with
  | nil => rfl
  | cons p l ih =>
    have hp : ¬ (p.name = "size") := h p (List.mem_cons_self p l)
    simp only [lastSizeAcc, if_neg hp]
    exact ih (fun r hr => h r (List.mem_cons_of_mem p hr))

theorem lastQualityAcc_append (l1 l2 : List FormField) (q : Option F32) :
    lastQualityAcc (l1 ++ l2) q = lastQualityAcc l2 (lastQualityAcc l1 q) := by
  induction l1 generalizing q with
  | nil => rfl
  | cons p l1 ih => simp [lastQualityAcc, ih]

theorem lastQualityAcc_not_named {l : List FormField} (h : ∀ r ∈ l, r.name ≠ "quality")
    (q : Option F32) : lastQualityAcc l q = q := by
  induction l with
  | nil => rfl
  | cons p l ih =>
    have hp : ¬ (p.name = "quality") := h p (List.mem_cons_self p l)
    simp only [lastQualityAcc, if_neg hp]
    exact ih (fun r hr => h r (List.mem_cons_of_mem p hr))

theorem loop_skips_other (pre post : List FormField) (p : FormField) (hi : p.name ≠ "image")
    (hs : p.name ≠ "size") (hq : p.name ≠ "quality") :
    ∀ i s q, multipart_loop (pre ++ p :: post) i s q = multipart_loop (pre ++ post) i s q := by
  induction pre with
  | nil => intro i s q; exact loop_cons_other hi hs hq
  | cons r pre ih =>
    intro i s q
    rw [List.cons_append, List.cons_append]
    by_cases hri : r.name = "image"
    · rw [loop_cons_image hri, loop_cons_image hri]; exact ih _ _ _
    by_cases hrs : r.name = "size"
    · rw [loop_cons_size hrs, loop_cons_size hrs]; exact ih _ _ _
    by_cases hrq : r.name = "quality"
    · cases hv : parseF32 r.text with
      | none => rw [loop_cons_quality_none hrq hv, loop_cons_quality_none hrq hv]; exact ih _ _ _
      | some v =>
        cases hout : F32.lt v (.finite 0) || F32.lt (.finite 100) v with
        | true => rw [loop_cons_quality_bad hrq hv hout, loop_cons_quality_bad hrq hv hout]
        | false =>
          rw [loop_cons_quality_ok hrq hv hout, loop_cons_quality_ok hrq hv hout]
          exact ih _ _ _
    · rw [loop_cons_other hri hrs hrq, loop_cons_other hri hrs hrq]; exact ih _ _ _

section ClaimTheoremsD
attribute [local semireducible] Rat.add Rat.mul Rat.inv Rat.sub

/-- C9 (confirmed): a multipart request carrying just a well-formed
PNG/JPEG/WEBP image (recognized format, decodable, encodable) with no
`size` and no `quality` field succeeds with status 200, content type
`image/webp`, a non-empty body, and the encoder is invoked at the
default quality 100.0. -/
theorem wellformed_no_params_success (dec : List Nat → Except String DynamicImage)
    (enc : DynamicImage → F32 → List Nat) (b : List Nat) (t : String) (f : ImageFormat)
    (img : DynamicImage) (hf : guess_format b = some f)
    (hsup : f = .Png ∨ f = .Jpeg ∨ f = .WebP) (hdec : dec b = .ok img)
    (henc : enc (to_rgba8 img) (.finite 100) ≠ []) :
    transform_image_handler dec enc [⟨"image", b, t⟩] =
        .ok ⟨200, some "image/webp", .bytes (enc (to_rgba8 img) (.finite 100))⟩ ∧
      enc (to_rgba8 img) (.finite 100) ≠ [] := by
  refine ⟨?_, henc⟩
  have hloop : multipart_loop [⟨"image", b, t⟩] none none none = .ok (some b, none, none) := by
    rw [loop_cons_image rfl]
    rfl
  have hpi : process_image dec enc b none none =
      .ok (enc (to_rgba8 img) (.finite 100)) := by
    simp only [process_image, hf]
    rw [if_neg (not_not_intro hsup)]
    simp only [hdec, Option.getD_none, encode_to_webp, encode_lossy_webp]
    rw [if_neg henc]
  rw [transform_image_handler, hloop]
  simp only [hpi]

/-- Witness for C9: a PNG-signature payload with the constant test
codec succeeds as a 200 `image/webp` response. -/
theorem wellformed_no_params_success_witness :
    transform_image_handler decOk encConst [⟨"image", pngBytes, ""⟩] =
        .ok ⟨200, some "image/webp", .bytes [42]⟩ ∧
      encConst (to_rgba8 ⟨1, 1⟩) (.finite 100) ≠ [] :=
  wellformed_no_params_success decOk encConst pngBytes "" .Png ⟨1, 1⟩ (by decide)
    (Or.inl rfl) rfl (by decide)

/-- C10 counterexample: with fields `image`, `quality=200`,
`quality=50`, the request aborts with the quality error even though the
last `quality` occurrence is in range — dropping the earlier occurrence
gives a 200 instead, so the last occurrence is not simply the one
used. -/
theorem last_occurrence_cex :
    transform_image_handler decOk encConst
        [⟨"image", pngBytes, ""⟩, ⟨"quality", [], "200"⟩, ⟨"quality", [], "50"⟩] =
        .error ⟨400, "Quality must be between 0.0 and 100.0"⟩ ∧
      transform_image_handler decOk encConst
        [⟨"image", pngBytes, ""⟩, ⟨"quality", [], "50"⟩] =
        .ok ⟨200, some "image/webp", .bytes [42]⟩ ∧
      (Except.error ⟨400, "Quality must be between 0.0 and 100.0"⟩ :
          Except AppError Response) ≠
        .ok ⟨200, some "image/webp", .bytes [42]⟩ := by
  refine ⟨by decide, by decide, by decide⟩

/-- C10 (amended): fields whose name is not `image`/`size`/`quality`
(including unnamed ones) are ignored; when the loop completes, the
values it hands on are those of the last occurrence of each recognized
name (for `quality`, the parse result of the last occurrence, which may
reset it to absent); the exception is a `quality` occurrence whose value
parses out of range, which aborts the request immediately with the 400
quality error. -/
theorem field_handling :
    (∀ (pre post : List FormField) (p : FormField) (i : Option (List Nat)) (s : Option String)
        (q : Option F32), p.name ≠ "image" → p.name ≠ "size" → p.name ≠ "quality" →
        multipart_loop (pre ++ p :: post) i s q = multipart_loop (pre ++ post) i s q) ∧
    (∀ (parts : List FormField) (i : Option (List Nat)) (s : Option String) (q : Option F32)
        img' s' q', multipart_loop parts i s q = .ok (img', s', q') →
        img' = lastImageAcc parts i ∧ s' = lastSizeAcc parts s ∧
          q' = lastQualityAcc parts q) ∧
    (∀ (pre post : List FormField) (p : FormField) (i : Option (List Nat)),
        p.name = "image" → (∀ r ∈ post, r.name ≠ "image") →
        lastImageAcc (pre ++ p :: post) i = some p.content) ∧
    (∀ (pre post : List FormField) (p : FormField) (s : Option String),
        p.name = "size" → (∀ r ∈ post, r.name ≠ "size") →
        lastSizeAcc (pre ++ p :: post) s = some p.text) ∧
    (∀ (pre post : List FormField) (p : FormField) (q : Option F32),
        p.name = "quality" → (∀ r ∈ post, r.name ≠ "quality") →
        lastQualityAcc (pre ++ p :: post) q = parseF32 p.text) ∧
    (∀ (parts : List FormField) (i : Option (List Nat)) (s : Option String) (q : Option F32),
        (∃ p ∈ parts, outOfRangeQuality p) →
        multipart_loop parts i s q =
          .error ⟨BAD_REQUEST, "Quality must be between 0.0 and 100.0"⟩) := by
  refine ⟨?_, ?_, ?_, ?_, ?_, ?_⟩
  · intro pre post p i s q hi hs hq
    exact loop_skips_other pre post p hi hs hq i s q
  · intro parts i s q img' s' q' h
    exact multipart_loop_ok_components parts i s q img' s' q' h
  · intro pre post p i hp hpost
    rw [lastImageAcc_append]
    simp only [lastImageAcc, if_pos hp]
    exact lastImageAcc_not_named hpost _
  · intro pre post p s hp hpost
    rw [lastSizeAcc_append]
    simp only [lastSizeAcc, if_pos hp]
    exact lastSizeAcc_not_named hpost _
  · intro pre post p q hp hpost
    rw [lastQualityAcc_append]
    simp only [lastQualityAcc, if_pos hp]
    exact lastQualityAcc_not_named hpost _
  · intro parts i s q hex
    exact multipart_loop_bad_quality parts hex i s q

/-- Witness for C10: a field named `other` is skipped by the loop. -/
theorem field_handling_witness :
    multipart_loop ([] ++ ⟨"other", [], ""⟩ :: []) none none none =
      multipart_loop ([] ++ []) none none none :=
  field_handling.1 [] [] ⟨"other", [], ""⟩ none none none (by decide) (by decide) (by decide)

end ClaimTheoremsD
